import Mathlib

/-!
Verification of the link-enrichment pipeline of the Twitter-Learning
repository (twitter-bookmarks-app).

The repository ships the callers of the pipeline (`bookmarks_fetcher.py`,
`main.py`) but the pipeline module itself (`link_expander.py`, class
`LinkExpander`) is not among the available sources; its behaviour is
modelled here from the design document.  The batch loops, the construction
site `LinkExpander(timeout=10, delay=0.3)` and the Markdown-export consumer
`BookmarksFetcher.export_to_markdown` are translated from the Python source.

Network interaction is modelled by an oracle (`Remote`) mapping URLs to
resolution and fetch outcomes, fixed for the duration of one run; elapsed
time is modelled by the pacing-sleep events the pipeline emits.
-/

namespace TwitterLearning

/-- Modelled from the spec (section 3, data model): one enrichment entry per
distinct URL found in a post.  `extra_data` is an open string-keyed mapping
whose values are rendered as strings by the consumers. -/
structure LinkMetadata where
  original_url : String
  expanded_url : String
  content_type : String
  title : Option String
  description : Option String
  extra_data : List (String × String)
  resolution_error : Option String
deriving DecidableEq, Repr

/-- A bookmark record as built by `BookmarksFetcher.fetch_bookmarks`
(bookmarks_fetcher.py lines 87-97): an id, body text, the raw URL
references carried by the tweet's `entities` field (absent when the tweet
has none), and the enrichment list attached under `url_metadata`. -/
structure Post where
  id : String
  text : String
  entities : Option (List String)
  url_metadata : List LinkMetadata
deriving DecidableEq, Repr

/-- Modelled from the spec (section 4.1): best-effort scan of the body text
for URL-shaped substrings, used when no structured entity data is present. -/
def scanUrls (text : String) : List String :=
  (text.splitOn " ").filter (fun w => w.startsWith "http")

/-- Modelled from the spec (section 4.1): the raw URL references of a post,
taken from structured entity data when present, else from a body-text scan. -/
def rawUrls (post : Post) : List String :=
  match post.entities with
  | some us => us
  | none => scanUrls post.text

/-- First-seen deduplication keyed on the literal URL string, with an
accumulator of URLs already seen. -/
def dedupFirstSeen : List String → List String → List String
  | _, [] => []
  | seen, u :: us =>
    if u ∈ seen then dedupFirstSeen seen us
    else u :: dedupFirstSeen (u :: seen) us

/-- Modelled from the spec (section 4.1, URL Extractor): the ordered,
first-seen-deduplicated sequence of URL strings referenced by a post. -/
def extractUrls (post : Post) : List String :=
  dedupFirstSeen [] (rawUrls post)

/-- Outcome of one resolution attempt (one outbound request following
redirects), as classified by the spec's failure taxonomy (section 4.2). -/
inductive ResolveOutcome where
  | resolved (dest : String)
  | timeout
  | connectError (msg : String)
  | httpError (code : Nat)
deriving DecidableEq, Repr

/-- Outcome of fetching a page body for the generic extractor: document
metadata, a non-fatal fetch/parse failure, or an unexpected exception. -/
inductive FetchOutcome where
  | page (title description : Option String)
  | fetchFailed
  | raised (msg : String)
deriving DecidableEq, Repr

/-- The remote world for one run: what resolution, page fetch and
code-hosting API calls would return for each URL.  Fixed for a run, so
processing is deterministic given the oracle. -/
structure Remote where
  resolve : String → ResolveOutcome
  fetch : String → FetchOutcome
  repoApi : String → Option (Nat × String)

/-- Drops a literal character-list prefix, returning the remainder when the
prefix matches. -/
def dropPref : List Char → List Char → Option (List Char)
  | [], s => some s
  | _ :: _, [] => none
  | p :: ps, c :: cs => if p = c then dropPref ps cs else none

/-- Characters of a query-parameter value: everything up to the next
parameter separator. -/
def takeTilAmp : List Char → List Char
  | [] => []
  | c :: cs => if c = '&' then [] else c :: takeTilAmp cs

/-- Modelled from the spec (section 4.3): structural test for a known
code-forge host. -/
def isGithubUrl (url : String) : Bool :=
  (dropPref "https://github.com/".toList url.toList).isSome ||
  (dropPref "http://github.com/".toList url.toList).isSome ||
  (dropPref "https://www.github.com/".toList url.toList).isSome

/-- Modelled from the spec (section 4.3): structural test for a known
video-platform host. -/
def isYoutubeUrl (url : String) : Bool :=
  (dropPref "https://www.youtube.com/".toList url.toList).isSome ||
  (dropPref "https://youtube.com/".toList url.toList).isSome ||
  (dropPref "https://youtu.be/".toList url.toList).isSome ||
  (dropPref "https://m.youtube.com/".toList url.toList).isSome

/-- Modelled from the spec (section 4.3, Classifier): pure, total mapping
from a resolved destination URL to a content-type tag by structural
inspection only, defaulting to the generic tag. -/
def classify (url : String) : String :=
  if isGithubUrl url then "github"
  else if isYoutubeUrl url then "youtube"
  else "generic"

/-- Modelled from the spec (section 4.4, Video extractor): derives the video
identifier from the URL's query parameter or path segment using the
platform's known URL shapes; purely structural.  Returns `none` when no
identifier pattern matches. -/
def videoIdOf (url : String) : Option String :=
  match dropPref "https://www.youtube.com/watch?v=".toList url.toList with
  | some rest => some (String.mk (takeTilAmp rest))
  | none =>
    match dropPref "https://youtube.com/watch?v=".toList url.toList with
    | some rest => some (String.mk (takeTilAmp rest))
    | none =>
      match dropPref "https://youtu.be/".toList url.toList with
      | some rest => some (String.mk (takeTilAmp rest))
      | none => none

/-- Modelled from the spec (section 4.2, Resolver): a single resolution
attempt; on any failure the original URL is returned paired with a
non-empty error indicator. -/
def resolveUrl (remote : Remote) (url : String) : String × Option String :=
  match remote.resolve url with
  | ResolveOutcome.resolved dest => (dest, none)
  | ResolveOutcome.timeout => (url, some "timeout")
  | ResolveOutcome.connectError m => (url, some ("connection failed: " ++ m))
  | ResolveOutcome.httpError c => (url, some ("HTTP " ++ toString c))

/-- Modelled from the spec (section 4.4, Extractors): the tag-dispatched
extraction step, before the per-URL error boundary.  The generic extractor
may hit an unexpected exception (`Except.error`); the video extractor is
purely structural; the code-hosting extractor degrades to empty
`extra_data` on API failure. -/
def extractRaw (remote : Remote) (tag url : String) :
    Except String (Option String × Option String × List (String × String)) :=
  if tag = "github" then
    Except.ok (none, none,
      match remote.repoApi url with
      | some sl => [("stars", toString sl.1), ("language", sl.2)]
      | none => [])
  else if tag = "youtube" then
    Except.ok (none, none,
      match videoIdOf url with
      | some v => [("video_id", v)]
      | none => [])
  else
    match remote.fetch url with
    | FetchOutcome.page t d => Except.ok (t, d, [])
    | FetchOutcome.fetchFailed => Except.ok (none, none, [])
    | FetchOutcome.raised msg => Except.error msg

/-- Modelled from the spec (sections 4.5 and 7): processing of one URL with
the per-URL error boundary — resolve, classify, extract, assemble; an
unexpected extraction error is caught and downgraded to a degraded entry
instead of propagating. -/
def processUrl (remote : Remote) (url : String) : LinkMetadata :=
  match extractRaw remote (classify (resolveUrl remote url).1) (resolveUrl remote url).1 with
  | Except.ok tde =>
    { original_url := url, expanded_url := (resolveUrl remote url).1,
      content_type := classify (resolveUrl remote url).1,
      title := tde.1, description := tde.2.1, extra_data := tde.2.2,
      resolution_error := (resolveUrl remote url).2 }
  | Except.error msg =>
    { original_url := url, expanded_url := (resolveUrl remote url).1,
      content_type := classify (resolveUrl remote url).1,
      title := none, description := none, extra_data := [],
      resolution_error := some ("extraction error: " ++ msg) }

/-- Modelled from the spec (section 4.5, Enrichment Orchestrator):
`LinkExpander.process_bookmark_urls` — appends one `LinkMetadata` per URL
returned by the extractor onto the post's metadata list, in order, never
replacing previously attached metadata. -/
def process_bookmark_urls (remote : Remote) (post : Post) : Post :=
  { post with
    url_metadata := post.url_metadata ++ (extractUrls post).map (processUrl remote) }

/-- Clearing the prior metadata list, the caller's obligation before an
explicit re-processing (spec section 3, lifecycle). -/
def clearMetadata (post : Post) : Post :=
  { post with url_metadata := [] }

/-- The per-instance configuration of the pipeline: the two construction-time
parameters, both wall-clock durations (bookmarks_fetcher.py line 26,
`LinkExpander.__init__`). -/
structure LinkExpander where
  timeout : ℚ
  delay : ℚ
deriving DecidableEq, Repr

/-- Construction of the expander with the two duration parameters. -/
def LinkExpander.init (timeout delay : ℚ) : LinkExpander :=
  { timeout := timeout, delay := delay }

/-- The expander built by `BookmarksFetcher.__init__`
(bookmarks_fetcher.py line 26): `LinkExpander(timeout=10, delay=0.3)`. -/
def fetcher_link_expander : LinkExpander :=
  LinkExpander.init 10 (3 / 10)

/-- Observable actions of one run: resolver calls, page fetches by the
generic extractor, code-hosting API calls, and pacing sleeps with their
durations. -/
inductive Event where
  | resolveCall (url : String)
  | fetchPage (url : String)
  | apiCall (url : String)
  | sleep (d : ℚ)
deriving DecidableEq, Repr

/-- Network actions of the tag-dispatched extraction step: the generic
extractor fetches the page body, the code-hosting extractor calls the
public read API, the video extractor performs no network call. -/
def extractEvents (tag url : String) : List Event :=
  if tag = "github" then [Event.apiCall url]
  else if tag = "youtube" then []
  else [Event.fetchPage url]

/-- Modelled from the spec (sections 4.2 and 4.5): the action trace of
processing one URL — one resolver call, the extractor's network actions,
then the pacing sleep paid after the attempt, success or failure. -/
def processUrlEvents (remote : Remote) (le : LinkExpander) (url : String) :
    List Event :=
  Event.resolveCall url ::
    extractEvents (classify (resolveUrl remote url).1) (resolveUrl remote url).1 ++
    [Event.sleep le.delay]

/-- The action trace of processing one post: the concatenation of the
per-URL traces, in extraction order. -/
def processEvents (remote : Remote) (le : LinkExpander) (post : Post) :
    List Event :=
  (extractUrls post).flatMap (processUrlEvents remote le)

/-- The action trace of a whole batch. -/
def batchEvents (remote : Remote) (le : LinkExpander) (posts : List Post) :
    List Event :=
  posts.flatMap (processEvents remote le)

/-- Total time spent in pacing sleeps along a trace; the modelled elapsed
wall-clock time is bounded below by it. -/
def totalSleep : List Event → ℚ
  | [] => 0
  | Event.sleep d :: es => d + totalSleep es
  | Event.resolveCall _ :: es => totalSleep es
  | Event.fetchPage _ :: es => totalSleep es
  | Event.apiCall _ :: es => totalSleep es

/-- Total number of URLs extracted across a batch. -/
def totalUrlCount (posts : List Post) : Nat :=
  (posts.map (fun p => (extractUrls p).length)).sum

/-- The per-post step of a batch loop, as the loops observe it: either the
enriched post, or an exception message together with the state the post was
left in when the exception surfaced. -/
def PostStep : Type := Post → Except (String × Post) Post

/-- The batch loop of `BookmarksApp.expand_bookmark_urls`
(main.py lines 600-607): each bookmark is processed inside a
try/except-Exception block; on an exception the loop reports and continues
with the next bookmark, keeping the failed bookmark as it was left. -/
def expand_bookmark_urls (step : PostStep) : List Post → List Post
  | [] => []
  | p :: ps =>
    (match step p with
     | Except.ok q => q
     | Except.error e => e.2) :: expand_bookmark_urls step ps

/-- The URL-expansion loop of `BookmarksFetcher.fetch_bookmarks`
(bookmarks_fetcher.py lines 136-146): bookmarks are processed in order;
a KeyboardInterrupt raised before processing bookmark number k begins
(counting from 0) is caught and breaks the loop, leaving that bookmark and
all later ones untouched.  `cancelAfter = some k` places the user's
cancellation signal there; `none` means no signal arrives. -/
def fetch_expand_loop (remote : Remote) (cancelAfter : Option Nat) :
    Nat → List Post → List Post
  | _, [] => []
  | k, p :: ps =>
    if cancelAfter = some k then p :: ps
    else process_bookmark_urls remote p :: fetch_expand_loop remote cancelAfter (k + 1) ps

/-- A Python value as the Markdown exporter sees it: a string, a number, or
a string-keyed dictionary. -/
inductive PyVal where
  | str (s : String)
  | num (n : Nat)
  | dict (entries : List (String × PyVal))

/-- Dictionary lookup, the `d.get(k)` form: `none` when the key is absent. -/
def pyLookup : List (String × PyVal) → String → Option PyVal
  | [], _ => none
  | kv :: rest, key => if kv.1 = key then some kv.2 else pyLookup rest key

/-- Subscript access `d[k]`: raises KeyError when the key is absent. -/
def pyIndex (d : List (String × PyVal)) (key : String) : Except String PyVal :=
  match pyLookup d key with
  | some v => Except.ok v
  | none => Except.error ("KeyError: " ++ key)

/-- Python truthiness of an optional value: absent, empty string, zero and
empty dict are falsy. -/
def truthy : Option PyVal → Bool
  | none => false
  | some (PyVal.str s) => decide (s ≠ "")
  | some (PyVal.num n) => decide (n ≠ 0)
  | some (PyVal.dict d) => !d.isEmpty

/-- String interpolation of a value, as the f-strings of the exporter use
it (only strings and numbers reach interpolation there). -/
def pyStr : PyVal → String
  | PyVal.str s => s
  | PyVal.num n => toString n
  | PyVal.dict _ => "dict"

/-- The per-link rendering of `BookmarksFetcher.export_to_markdown`
(bookmarks_fetcher.py lines 236-256): the link line subscripts
`expanded_url` unconditionally (KeyError when absent, in both the titled
and untitled branch), the description is truncated to its first 200
characters by this consumer, and the github/youtube extra facts are read
with the non-raising `get` form. -/
def render_link_data (ld : List (String × PyVal)) : Except String String :=
  match pyIndex ld "expanded_url" with
  | Except.error e => Except.error e
  | Except.ok eu =>
    let head :=
      match pyLookup ld "title" with
      | some t =>
        if truthy (some t) then "**[" ++ pyStr t ++ "](" ++ pyStr eu ++ ")**"
        else "**[Link](" ++ pyStr eu ++ ")**"
      | none => "**[Link](" ++ pyStr eu ++ ")**"
    let descPart :=
      match pyLookup ld "description" with
      | some dsc =>
        if truthy (some dsc) then "\n> " ++ (pyStr dsc).take 200 ++ "..."
        else ""
      | none => ""
    let ctype :=
      match pyLookup ld "content_type" with
      | some c => pyStr c
      | none => ""
    let extraPart :=
      if ctype = "github" then
        match pyLookup ld "extra_data" with
        | some (PyVal.dict ex) =>
          if ex.isEmpty then ""
          else
            (match pyLookup ex "stars" with
             | some s => if truthy (some s) then "\n> ⭐ " ++ pyStr s ++ " stars" else ""
             | none => "") ++
            (match pyLookup ex "language" with
             | some l => if truthy (some l) then " • 💻 " ++ pyStr l else ""
             | none => "")
        | _ => ""
      else if ctype = "youtube" then
        match pyLookup ld "extra_data" with
        | some (PyVal.dict ex) =>
          if ex.isEmpty then ""
          else
            match pyLookup ex "video_id" with
            | some v => if truthy (some v) then "\n> 📺 YouTube Video ID: " ++ pyStr v else ""
            | none => ""
        | _ => ""
      else ""
    Except.ok (head ++ descPart ++ extraPart ++ "\n\n")

/-- The link-section loop of `export_to_markdown` (bookmarks_fetcher.py
lines 235-256): each entry of `url_metadata` is rendered in order; a raised
KeyError aborts the export. -/
def render_url_metadata : List (List (String × PyVal)) → Except String (List String)
  | [] => Except.ok []
  | ld :: rest =>
    match render_link_data ld with
    | Except.error e => Except.error e
    | Except.ok s =>
      match render_url_metadata rest with
      | Except.error e => Except.error e
      | Except.ok ss => Except.ok (s :: ss)

/-- The dictionary shape in which a `LinkMetadata` entry reaches the
consumers: the mandatory keys are always present, the optional fields are
present when populated. -/
def LinkMetadata.toDict (m : LinkMetadata) : List (String × PyVal) :=
  [("original_url", PyVal.str m.original_url),
   ("expanded_url", PyVal.str m.expanded_url),
   ("content_type", PyVal.str m.content_type)] ++
  (match m.title with
   | some t => [("title", PyVal.str t)]
   | none => []) ++
  (match m.description with
   | some d => [("description", PyVal.str d)]
   | none => []) ++
  [("extra_data", PyVal.dict (m.extra_data.map (fun kv => (kv.1, PyVal.str kv.2))))] ++
  (match m.resolution_error with
   | some e => [("resolution_error", PyVal.str e)]
   | none => [])

/-- A remote world where every resolution times out, used to exercise the
degraded path on concrete inputs. -/
def remoteAllTimeout : Remote :=
  { resolve := fun _ => ResolveOutcome.timeout,
    fetch := fun _ => FetchOutcome.fetchFailed,
    repoApi := fun _ => none }

/-- A remote world where every resolution succeeds unchanged and every page
fetch yields a fixed title and description. -/
def remoteIdent : Remote :=
  { resolve := fun u => ResolveOutcome.resolved u,
    fetch := fun _ => FetchOutcome.page (some "T") (some "D"),
    repoApi := fun _ => none }

/-- A sample post with a duplicated URL reference and no prior metadata. -/
def samplePost : Post :=
  { id := "1", text := "hello",
    entities := some ["https://a.example/x", "https://b.example/y", "https://a.example/x"],
    url_metadata := [] }

/-- A second sample post. -/
def samplePost2 : Post :=
  { id := "2", text := "https://c.example/z linked",
    entities := none,
    url_metadata := [] }

/-- A per-post step that always raises, leaving the post as it was: used to
exercise the batch loop's per-post error boundary on concrete inputs. -/
def stepFail : PostStep := fun p => Except.error ("boom", p)

theorem mem_dedupFirstSeen (l : List String) : ∀ (seen : List String) (u : String),
    u ∈ dedupFirstSeen seen l ↔ u ∈ l ∧ u ∉ seen := by
  induction l with
  | nil => intro seen u; simp [dedupFirstSeen]
  | cons v us ih =>
    intro seen u
    by_cases hv : v ∈ seen
    · rw [dedupFirstSeen, if_pos hv, ih]
      simp only [List.mem_cons]
      constructor
      · exact fun h => ⟨Or.inr h.1, h.2⟩
      · rintro ⟨rfl | h1, h2⟩
        · exact absurd hv h2
        · exact ⟨h1, h2⟩
    · rw [dedupFirstSeen, if_neg hv]
      simp only [List.mem_cons, ih (v :: seen) u]
      constructor
      · rintro (rfl | ⟨h1, h2⟩)
        · exact ⟨Or.inl rfl, hv⟩
        · exact ⟨Or.inr h1, fun hc => h2 (Or.inr hc)⟩
      · rintro ⟨rfl | h1, h2⟩
        · exact Or.inl rfl
        · by_cases huv : u = v
          · exact Or.inl huv
          · exact Or.inr ⟨h1, by simp [List.mem_cons, huv, h2]⟩

theorem nodup_dedupFirstSeen (l : List String) : ∀ seen : List String,
    (dedupFirstSeen seen l).Nodup := by
  induction l with
  | nil => intro seen; simp [dedupFirstSeen]
  | cons v us ih =>
    intro seen
    by_cases hv : v ∈ seen
    · rw [dedupFirstSeen, if_pos hv]; exact ih seen
    · rw [dedupFirstSeen, if_neg hv]
      refine List.nodup_cons.mpr ⟨fun hc => ?_, ih (v :: seen)⟩
      exact ((mem_dedupFirstSeen us (v :: seen) v).mp hc).2 (List.mem_cons_self v _)

theorem extractUrls_nodup (post : Post) : (extractUrls post).Nodup :=
  nodup_dedupFirstSeen (rawUrls post) []

theorem mem_extractUrls (post : Post) (u : String) :
    u ∈ extractUrls post ↔ u ∈ rawUrls post := by
  rw [extractUrls, mem_dedupFirstSeen]
  simp

theorem dropPref_append (p : List Char) : ∀ s : List Char,
    dropPref p (p ++ s) = some s := by
  induction p with
  | nil => intro s; rfl
  | cons c cs ih => intro s; simp [dropPref, ih]

theorem takeTilAmp_of_not_mem : ∀ s : List Char, '&' ∉ s → takeTilAmp s = s := by
  intro s
  induction s with
  | nil => intro _; rfl
  | cons c cs ih =>
    intro h
    have hc : ¬(c = '&') := fun hc => h (by simp [hc])
    rw [takeTilAmp, if_neg hc, ih (fun hm => h (List.mem_cons_of_mem _ hm))]

theorem processUrl_original (remote : Remote) (u : String) :
    (processUrl remote u).original_url = u := by
  unfold processUrl
  cases h : extractRaw remote (classify (resolveUrl remote u).1) (resolveUrl remote u).1 <;>
    simp [h]

theorem processUrl_expanded (remote : Remote) (u : String) :
    (processUrl remote u).expanded_url = (resolveUrl remote u).1 := by
  unfold processUrl
  cases h : extractRaw remote (classify (resolveUrl remote u).1) (resolveUrl remote u).1 <;>
    simp [h]

theorem resolveUrl_of_fail (remote : Remote) (u : String)
    (h : ∀ dest, remote.resolve u ≠ ResolveOutcome.resolved dest) :
    (resolveUrl remote u).1 = u := by
  unfold resolveUrl
  cases hr : remote.resolve u with
  | resolved dest => exact absurd hr (h dest)
  | timeout => rfl
  | connectError m => rfl
  | httpError c => rfl

theorem process_metadata (remote : Remote) (post : Post) :
    (process_bookmark_urls remote post).url_metadata =
      post.url_metadata ++ (extractUrls post).map (processUrl remote) := rfl

theorem process_id (remote : Remote) (post : Post) :
    (process_bookmark_urls remote post).id = post.id := rfl

theorem process_text (remote : Remote) (post : Post) :
    (process_bookmark_urls remote post).text = post.text := rfl

theorem process_entities (remote : Remote) (post : Post) :
    (process_bookmark_urls remote post).entities = post.entities := rfl

theorem extractUrls_clear (post : Post) :
    extractUrls (clearMetadata post) = extractUrls post := rfl

theorem clear_process_clear (remote : Remote) (post : Post) :
    clearMetadata (process_bookmark_urls remote (clearMetadata post)) =
      clearMetadata post := rfl

theorem expand_bookmark_urls_append (step : PostStep) (ps qs : List Post) :
    expand_bookmark_urls step (ps ++ qs) =
      expand_bookmark_urls step ps ++ expand_bookmark_urls step qs := by
  induction ps with
  | nil => rfl
  | cons p ps ih => simp [expand_bookmark_urls, ih]

theorem fetch_expand_loop_eq (remote : Remote) (K : Nat) :
    ∀ (posts : List Post) (k : Nat), k ≤ K →
      fetch_expand_loop remote (some K) k posts =
        (posts.take (K - k)).map (process_bookmark_urls remote) ++ posts.drop (K - k) := by
  intro posts
  induction posts with
  | nil => intro k _; simp [fetch_expand_loop]
  | cons p ps ih =>
    intro k hk
    by_cases hkK : k = K
    · subst hkK
      rw [fetch_expand_loop, if_pos rfl]
      simp
    · have hlt : k < K := lt_of_le_of_ne hk hkK
      have hcond : ¬((some K : Option Nat) = some k) := by
        simp [Ne.symm hkK]
      rw [fetch_expand_loop, if_neg hcond, ih (k + 1) hlt]
      have hKk : K - k = (K - (k + 1)) + 1 := by omega
      rw [hKk]
      simp

theorem totalSleep_append (l1 l2 : List Event) :
    totalSleep (l1 ++ l2) = totalSleep l1 + totalSleep l2 := by
  induction l1 with
  | nil => simp [totalSleep]
  | cons e es ih => cases e <;> simp [totalSleep, ih] <;> ring

theorem totalSleep_processUrlEvents (remote : Remote) (le : LinkExpander)
    (u : String) :
    totalSleep (processUrlEvents remote le u) = le.delay := by
  unfold processUrlEvents extractEvents
  split_ifs <;> simp [totalSleep]

theorem totalSleep_processEvents (remote : Remote) (le : LinkExpander)
    (post : Post) :
    totalSleep (processEvents remote le post) =
      ((extractUrls post).length : ℚ) * le.delay := by
  unfold processEvents
  induction extractUrls post with
  | nil => simp [totalSleep]
  | cons u us ih =>
    rw [List.flatMap_cons, totalSleep_append, ih, totalSleep_processUrlEvents]
    rw [List.length_cons]
    push_cast
    ring

theorem totalSleep_batchEvents (remote : Remote) (le : LinkExpander)
    (posts : List Post) :
    totalSleep (batchEvents remote le posts) =
      (totalUrlCount posts : ℚ) * le.delay := by
  unfold batchEvents totalUrlCount
  induction posts with
  | nil => simp [totalSleep]
  | cons p ps ih =>
    rw [List.flatMap_cons, totalSleep_append, ih, totalSleep_processEvents]
    rw [List.map_cons, List.sum_cons]
    push_cast
    ring

theorem count_resolve_extractEvents (tag url : String) (u : String) :
    (extractEvents tag url).count (Event.resolveCall u) = 0 := by
  unfold extractEvents
  split_ifs <;> simp [List.count_cons]

theorem count_resolve_processUrlEvents (remote : Remote) (le : LinkExpander)
    (v u : String) :
    (processUrlEvents remote le v).count (Event.resolveCall u) =
      if v = u then 1 else 0 := by
  unfold processUrlEvents
  by_cases h : v = u <;>
    simp [h, List.count_cons, List.count_append, count_resolve_extractEvents]

theorem count_resolve_flatMap (remote : Remote) (le : LinkExpander)
    (u : String) : ∀ l : List String,
    (l.flatMap (processUrlEvents remote le)).count (Event.resolveCall u) =
      l.count u := by
  intro l
  induction l with
  | nil => simp
  | cons v vs ih =>
    rw [List.flatMap_cons, List.count_append, ih,
      count_resolve_processUrlEvents]
    by_cases h : v = u <;> simp [h, List.count_cons] <;> omega

theorem sleep_mem_processUrlEvents (remote : Remote) (le : LinkExpander)
    (u : String) (d : ℚ) (h : Event.sleep d ∈ processUrlEvents remote le u) :
    d = le.delay := by
  unfold processUrlEvents extractEvents at h
  split_ifs at h <;> simp at h <;> exact h

theorem pyLookup_toDict_expanded (m : LinkMetadata) :
    pyLookup m.toDict "expanded_url" = some (PyVal.str m.expanded_url) := by
  unfold LinkMetadata.toDict
  simp [pyLookup]

theorem render_link_data_ok_iff (ld : List (String × PyVal)) :
    (∃ s, render_link_data ld = Except.ok s) ↔
      (pyLookup ld "expanded_url").isSome := by
  unfold render_link_data pyIndex
  cases h : pyLookup ld "expanded_url" <;> simp [h]

theorem render_toDict_ok (m : LinkMetadata) :
    ∃ s, render_link_data m.toDict = Except.ok s := by
  rw [render_link_data_ok_iff, pyLookup_toDict_expanded]
  rfl

theorem render_url_metadata_ok_iff (lds : List (List (String × PyVal))) :
    (∃ parts, render_url_metadata lds = Except.ok parts) ↔
      (∀ ld ∈ lds, (pyLookup ld "expanded_url").isSome) := by
  induction lds with
  | nil => simp [render_url_metadata]
  | cons ld rest ih =>
    rw [render_url_metadata]
    constructor
    · rintro ⟨parts, hp⟩
      cases h1 : render_link_data ld with
      | error e => rw [h1] at hp; exact absurd hp (by simp)
      | ok s =>
        rw [h1] at hp
        cases h2 : render_url_metadata rest with
        | error e => rw [h2] at hp; exact absurd hp (by simp)
        | ok ss =>
          intro x hx
          rcases List.mem_cons.mp hx with rfl | hx
          · exact (render_link_data_ok_iff x).mp ⟨s, h1⟩
          · exact (ih.mp ⟨ss, h2⟩) x hx
    · intro h
      obtain ⟨s, hs⟩ := (render_link_data_ok_iff ld).mpr (h ld (List.mem_cons_self ld rest))
      obtain ⟨ss, hss⟩ := ih.mpr (fun x hx => h x (List.mem_cons_of_mem _ hx))
      exact ⟨s :: ss, by rw [hs, hss]⟩

theorem render_url_metadata_length (lds : List (List (String × PyVal)))
    (parts : List String) (h : render_url_metadata lds = Except.ok parts) :
    parts.length = lds.length := by
  induction lds generalizing parts with
  | nil =>
    rw [render_url_metadata] at h
    cases h
    rfl
  | cons ld rest ih =>
    rw [render_url_metadata] at h
    cases h1 : render_link_data ld with
    | error e => rw [h1] at h; exact absurd h (by simp)
    | ok s =>
      rw [h1] at h
      cases h2 : render_url_metadata rest with
      | error e => rw [h2] at h; exact absurd h (by simp)
      | ok ss =>
        rw [h2] at h
        cases h
        simp [ih ss h2]

theorem render_url_metadata_error_of_missing (lds : List (List (String × PyVal)))
    (ld : List (String × PyVal)) (hld : ld ∈ lds)
    (h : pyLookup ld "expanded_url" = none) :
    ∃ e, render_url_metadata lds = Except.error e := by
  by_contra hc
  push_neg at hc
  have hok : ∃ parts, render_url_metadata lds = Except.ok parts := by
    cases hr : render_url_metadata lds with
    | error e => exact absurd hr (hc e)
    | ok parts => exact ⟨parts, rfl⟩
  have := (render_url_metadata_ok_iff lds).mp hok ld hld
  rw [h] at this
  exact absurd this (by simp)

theorem toList_append (s t : String) : (s ++ t).toList = s.toList ++ t.toList := by
  simp [String.toList, String.data_append]

theorem isGithubUrl_youtube_watch (vid : String) :
    isGithubUrl ("https://www.youtube.com/watch?v=" ++ vid) = false := by
  unfold isGithubUrl
  rw [toList_append]
  rfl

theorem isYoutubeUrl_youtube_watch (vid : String) :
    isYoutubeUrl ("https://www.youtube.com/watch?v=" ++ vid) = true := by
  unfold isYoutubeUrl
  rw [toList_append]
  rfl

theorem classify_youtube_watch (vid : String) :
    classify ("https://www.youtube.com/watch?v=" ++ vid) = "youtube" := by
  unfold classify
  rw [isGithubUrl_youtube_watch, isYoutubeUrl_youtube_watch]
  rfl

theorem videoIdOf_youtube_watch (vid : String) (hamp : '&' ∉ vid.toList) :
    videoIdOf ("https://www.youtube.com/watch?v=" ++ vid) = some vid := by
  unfold videoIdOf
  rw [toList_append, dropPref_append]
  have h2 : takeTilAmp vid.data = vid.data := takeTilAmp_of_not_mem vid.toList hamp
  simp [h2]

theorem extraction_error_ne_empty (msg : String) :
    ("extraction error: " ++ msg) ≠ "" := by
  intro hc
  have h := congrArg String.data hc
  rw [String.data_append, List.append_eq_nil] at h
  exact absurd h.1 (by decide)

theorem processUrl_timeout_fields (remote : Remote) (u : String)
    (ht : remote.resolve u = ResolveOutcome.timeout) :
    (processUrl remote u).expanded_url = u ∧
    ∃ e, (processUrl remote u).resolution_error = some e ∧ e ≠ "" := by
  have h1 : resolveUrl remote u = (u, some "timeout") := by
    unfold resolveUrl; rw [ht]
  unfold processUrl
  rw [h1]
  cases h : extractRaw remote (classify (u, some "timeout").1) (u, some "timeout").1 with
  | ok tde => exact ⟨rfl, "timeout", rfl, by decide⟩
  | error msg =>
    exact ⟨rfl, "extraction error: " ++ msg, rfl, extraction_error_ne_empty msg⟩

theorem processUrl_resolved_generic (remote : Remote) (u dest : String)
    (t d : Option String)
    (hres : remote.resolve u = ResolveOutcome.resolved dest)
    (hcls : classify dest = "generic")
    (hfetch : remote.fetch dest = FetchOutcome.page t d) :
    processUrl remote u =
      { original_url := u, expanded_url := dest, content_type := "generic",
        title := t, description := d, extra_data := [],
        resolution_error := none } := by
  have h1 : resolveUrl remote u = (dest, none) := by
    unfold resolveUrl; rw [hres]
  unfold processUrl
  rw [h1]
  simp [hcls, extractRaw, hfetch]

theorem processUrl_resolved_youtube (remote : Remote) (u dest : String)
    (hres : remote.resolve u = ResolveOutcome.resolved dest)
    (hcls : classify dest = "youtube") :
    processUrl remote u =
      { original_url := u, expanded_url := dest, content_type := "youtube",
        title := none, description := none,
        extra_data :=
          match videoIdOf dest with
          | some v => [("video_id", v)]
          | none => [],
        resolution_error := none } := by
  have h1 : resolveUrl remote u = (dest, none) := by
    unfold resolveUrl; rw [hres]
  unfold processUrl
  rw [h1]
  simp [hcls, extractRaw]

theorem pyIndex_toDict_expanded (m : LinkMetadata) :
    pyIndex m.toDict "expanded_url" = Except.ok (PyVal.str m.expanded_url) := by
  unfold pyIndex
  rw [pyLookup_toDict_expanded]

theorem pyLookup_toDict_title (m : LinkMetadata) :
    pyLookup m.toDict "title" = m.title.map PyVal.str := by
  unfold LinkMetadata.toDict
  cases m.title <;> cases m.description <;> cases m.resolution_error <;>
    simp [pyLookup]

theorem pyLookup_toDict_description (m : LinkMetadata) :
    pyLookup m.toDict "description" = m.description.map PyVal.str := by
  unfold LinkMetadata.toDict
  cases m.title <;> cases m.description <;> cases m.resolution_error <;>
    simp [pyLookup]

theorem pyLookup_toDict_content (m : LinkMetadata) :
    pyLookup m.toDict "content_type" = some (PyVal.str m.content_type) := by
  unfold LinkMetadata.toDict
  simp [pyLookup]

theorem pyLookup_toDict_extra (m : LinkMetadata) :
    pyLookup m.toDict "extra_data" =
      some (PyVal.dict (m.extra_data.map (fun kv => (kv.1, PyVal.str kv.2)))) := by
  unfold LinkMetadata.toDict
  cases m.title <;> cases m.description <;> cases m.resolution_error <;>
    simp [pyLookup]

theorem render_desc_truncates (m : LinkMetadata) (dsc : String)
    (hd : m.description = some dsc) (hne : dsc ≠ "")
    (hct : m.content_type = "generic") :
    ∃ head, render_link_data m.toDict =
      Except.ok (head ++ ("\n> " ++ dsc.take 200 ++ "...") ++ "\n\n") := by
  unfold render_link_data
  rw [pyIndex_toDict_expanded m]
  simp only [pyLookup_toDict_title, pyLookup_toDict_description,
    pyLookup_toDict_content, pyLookup_toDict_extra, hd, hct]
  cases ht : m.title with
  | none =>
    refine ⟨"**[Link](" ++ m.expanded_url ++ ")**", ?_⟩
    simp +decide [truthy, pyStr, hne, String.append_assoc]
  | some t =>
    by_cases hte : t = ""
    · refine ⟨"**[Link](" ++ m.expanded_url ++ ")**", ?_⟩
      simp +decide [truthy, pyStr, hne, hte, String.append_assoc]
    · refine ⟨"**[" ++ t ++ "](" ++ m.expanded_url ++ ")**", ?_⟩
      simp +decide [truthy, pyStr, hne, hte, String.append_assoc]

/-- C1: every URL seen by the URL Extractor yields exactly one
`LinkMetadata` entry in the post's metadata list, in first-seen order, even
when resolution fails: a post with N distinct URLs has exactly N entries
after processing, and a failed URL produces a degraded entry with
`expanded_url` equal to the original URL rather than being dropped. -/
theorem c1_one_entry_per_url (remote : Remote) (post : Post)
    (h : post.url_metadata = []) :
    (process_bookmark_urls remote post).url_metadata =
      (extractUrls post).map (processUrl remote) ∧
    (process_bookmark_urls remote post).url_metadata.length =
      (extractUrls post).length ∧
    (extractUrls post).Nodup ∧
    (∀ u, u ∈ extractUrls post ↔ u ∈ rawUrls post) ∧
    (process_bookmark_urls remote post).url_metadata.map
        LinkMetadata.original_url = extractUrls post ∧
    (∀ u ∈ extractUrls post,
       (∀ dest, remote.resolve u ≠ ResolveOutcome.resolved dest) →
         (processUrl remote u).expanded_url = u ∧
           processUrl remote u ∈ (process_bookmark_urls remote post).url_metadata) := by
  refine ⟨?_, ?_, extractUrls_nodup post, fun u => mem_extractUrls post u, ?_, ?_⟩
  · rw [process_metadata, h, List.nil_append]
  · rw [process_metadata, h, List.nil_append, List.length_map]
  · rw [process_metadata, h, List.nil_append, List.map_map]
    simp [Function.comp_def, processUrl_original]
  · intro u hu hfail
    refine ⟨?_, ?_⟩
    · rw [processUrl_expanded, resolveUrl_of_fail remote u hfail]
    · rw [process_metadata, h, List.nil_append]
      exact List.mem_map_of_mem _ hu

/-- Witness for C1: the theorem applied to a concrete post with three raw
URL references (one duplicated) and a remote world where every resolution
times out. -/
theorem c1_one_entry_per_url_witness :
    samplePost.url_metadata = [] ∧
    (process_bookmark_urls remoteAllTimeout samplePost).url_metadata =
      (extractUrls samplePost).map (processUrl remoteAllTimeout) ∧
    (process_bookmark_urls remoteAllTimeout samplePost).url_metadata.length =
      (extractUrls samplePost).length ∧
    (process_bookmark_urls remoteAllTimeout samplePost).url_metadata.map
        LinkMetadata.original_url = extractUrls samplePost :=
  ⟨rfl, (c1_one_entry_per_url remoteAllTimeout samplePost rfl).1,
    (c1_one_entry_per_url remoteAllTimeout samplePost rfl).2.1,
    (c1_one_entry_per_url remoteAllTimeout samplePost rfl).2.2.2.2.1⟩

/-- C2: no error raised while processing a single URL propagates out of
`process(post)` — the result always carries one entry per extracted URL —
and no error raised while processing a single post propagates out of the
batch loop: the loop catches the per-post exception, keeps the failed post
as the exception left it, and continues, leaving the results for all other
posts unchanged. -/
theorem c2_error_isolation (remote : Remote) (post : Post) (step : PostStep)
    (ps qs : List Post) (p : Post) (e : String × Post)
    (he : step p = Except.error e) :
    (process_bookmark_urls remote post).url_metadata.length =
      post.url_metadata.length + (extractUrls post).length ∧
    expand_bookmark_urls step (ps ++ p :: qs) =
      expand_bookmark_urls step ps ++ e.2 :: expand_bookmark_urls step qs := by
  constructor
  · rw [process_metadata, List.length_append, List.length_map]
  · rw [expand_bookmark_urls_append]
    simp [expand_bookmark_urls, he]

/-- Witness for C2: the theorem applied to a step that raises on the middle
post of a three-post batch. -/
theorem c2_error_isolation_witness :
    stepFail samplePost2 = Except.error ("boom", samplePost2) ∧
    (process_bookmark_urls remoteAllTimeout samplePost).url_metadata.length =
      samplePost.url_metadata.length + (extractUrls samplePost).length ∧
    expand_bookmark_urls stepFail ([samplePost] ++ samplePost2 :: [samplePost]) =
      expand_bookmark_urls stepFail [samplePost] ++
        samplePost2 :: expand_bookmark_urls stepFail [samplePost] :=
  ⟨rfl,
    c2_error_isolation remoteAllTimeout samplePost stepFail [samplePost]
      [samplePost] samplePost2 ("boom", samplePost2) rfl⟩

/-- C3: a cancellation signal arriving after post K has been processed
halts the batch loop before the next post begins; posts 1..K come out
fully enriched (their metadata lists complete, one entry per URL) and
posts K+1..M are returned untouched. -/
theorem c3_cancellation (remote : Remote) (K : Nat) (posts : List Post) :
    fetch_expand_loop remote (some K) 0 posts =
      (posts.take K).map (process_bookmark_urls remote) ++ posts.drop K ∧
    ((posts.take K).map (process_bookmark_urls remote)).map
        (fun q => q.url_metadata.length) =
      (posts.take K).map
        (fun p => p.url_metadata.length + (extractUrls p).length) := by
  constructor
  · simpa using fetch_expand_loop_eq remote K posts 0 (Nat.zero_le K)
  · rw [List.map_map]
    refine List.map_congr_left ?_
    intro p _
    simp [Function.comp_def, process_metadata]

/-- C4: a URL whose resolver call times out yields a degraded entry with
`expanded_url` equal to the original URL and a non-empty error indicator,
the entry is still appended to the post, no exception escapes, and the
resolver is invoked exactly once for that URL in the run — no automatic
retry. -/
theorem c4_timeout_no_retry (remote : Remote) (le : LinkExpander)
    (post : Post) (u : String) (hu : u ∈ extractUrls post)
    (ht : remote.resolve u = ResolveOutcome.timeout) :
    (processUrl remote u).expanded_url = u ∧
    (∃ e, (processUrl remote u).resolution_error = some e ∧ e ≠ "") ∧
    processUrl remote u ∈ (process_bookmark_urls remote post).url_metadata ∧
    (processEvents remote le post).count (Event.resolveCall u) = 1 := by
  obtain ⟨h1, h2⟩ := processUrl_timeout_fields remote u ht
  refine ⟨h1, h2, ?_, ?_⟩
  · rw [process_metadata]
    exact List.mem_append_right _ (List.mem_map_of_mem _ hu)
  · unfold processEvents
    rw [count_resolve_flatMap]
    exact List.count_eq_one_of_mem (extractUrls_nodup post) hu

/-- Witness for C4: the theorem applied to a concrete post containing the
timed-out URL, under a remote world where every resolution times out. -/
theorem c4_timeout_no_retry_witness :
    "https://a.example/x" ∈ extractUrls samplePost ∧
    remoteAllTimeout.resolve "https://a.example/x" = ResolveOutcome.timeout ∧
    (processUrl remoteAllTimeout "https://a.example/x").expanded_url =
      "https://a.example/x" ∧
    processUrl remoteAllTimeout "https://a.example/x" ∈
      (process_bookmark_urls remoteAllTimeout samplePost).url_metadata ∧
    (processEvents remoteAllTimeout fetcher_link_expander samplePost).count
      (Event.resolveCall "https://a.example/x") = 1 :=
  ⟨by decide, rfl,
    (c4_timeout_no_retry remoteAllTimeout fetcher_link_expander samplePost
      "https://a.example/x" (by decide) rfl).1,
    (c4_timeout_no_retry remoteAllTimeout fetcher_link_expander samplePost
      "https://a.example/x" (by decide) rfl).2.2.1,
    (c4_timeout_no_retry remoteAllTimeout fetcher_link_expander samplePost
      "https://a.example/x" (by decide) rfl).2.2.2⟩

/-- C5: processing mutates only the `url_metadata` list of the post,
attaching the ordered entries; every attached entry is consumable by the
Markdown exporter without further transformation (its mandatory keys are
present, so rendering succeeds); the pipeline stores the description in
full, untruncated, while the exporter truncates it to its first 200
characters. -/
theorem c5_output_shape (remote : Remote) (post : Post) (u dest : String)
    (t : Option String) (dsc : String)
    (hres : remote.resolve u = ResolveOutcome.resolved dest)
    (hcls : classify dest = "generic")
    (hfetch : remote.fetch dest = FetchOutcome.page t (some dsc))
    (hne : dsc ≠ "") :
    ((process_bookmark_urls remote post).id = post.id ∧
     (process_bookmark_urls remote post).text = post.text ∧
     (process_bookmark_urls remote post).entities = post.entities ∧
     (process_bookmark_urls remote post).url_metadata =
       post.url_metadata ++ (extractUrls post).map (processUrl remote)) ∧
    (∀ m ∈ (extractUrls post).map (processUrl remote),
       ∃ s, render_link_data m.toDict = Except.ok s) ∧
    (processUrl remote u).description = some dsc ∧
    (∃ head, render_link_data (processUrl remote u).toDict =
       Except.ok (head ++ ("\n> " ++ dsc.take 200 ++ "...") ++ "\n\n")) := by
  have hpu := processUrl_resolved_generic remote u dest t (some dsc) hres hcls hfetch
  refine ⟨⟨process_id remote post, process_text remote post,
    process_entities remote post, process_metadata remote post⟩,
    fun m _ => render_toDict_ok m, ?_, ?_⟩
  · rw [hpu]
  · exact render_desc_truncates (processUrl remote u) dsc (by rw [hpu]) hne
      (by rw [hpu])

/-- Witness for C5: the theorem applied to a remote world that resolves
every URL to itself and serves a fixed title and description. -/
theorem c5_output_shape_witness :
    remoteIdent.resolve "https://a.example/x" =
      ResolveOutcome.resolved "https://a.example/x" ∧
    classify "https://a.example/x" = "generic" ∧
    remoteIdent.fetch "https://a.example/x" =
      FetchOutcome.page (some "T") (some "D") ∧
    (process_bookmark_urls remoteIdent samplePost).id = samplePost.id ∧
    (process_bookmark_urls remoteIdent samplePost).url_metadata =
      samplePost.url_metadata ++
        (extractUrls samplePost).map (processUrl remoteIdent) ∧
    (processUrl remoteIdent "https://a.example/x").description = some "D" :=
  ⟨rfl, by decide, rfl,
    (c5_output_shape remoteIdent samplePost "https://a.example/x"
      "https://a.example/x" (some "T") "D" rfl (by decide) rfl
      (by decide)).1.1,
    (c5_output_shape remoteIdent samplePost "https://a.example/x"
      "https://a.example/x" (some "T") "D" rfl (by decide) rfl
      (by decide)).1.2.2.2,
    (c5_output_shape remoteIdent samplePost "https://a.example/x"
      "https://a.example/x" (some "T") "D" rfl (by decide) rfl
      (by decide)).2.2.1⟩

/-- C6: the pipeline's configuration is the two construction-time duration
parameters; the call site constructs them as timeout 10 and delay 0.3, and
every pacing sleep performed during processing uses exactly the
construction-time delay — the configuration is never mutated. -/
theorem c6_config_surface (remote : Remote) (post : Post) :
    fetcher_link_expander = LinkExpander.init 10 (3 / 10) ∧
    fetcher_link_expander.timeout = 10 ∧
    fetcher_link_expander.delay = 3 / 10 ∧
    (∀ d : ℚ, Event.sleep d ∈ processEvents remote fetcher_link_expander post →
       d = fetcher_link_expander.delay) := by
  refine ⟨rfl, rfl, rfl, ?_⟩
  intro d hd
  unfold processEvents at hd
  rcases List.mem_flatMap.mp hd with ⟨u, _, hu2⟩
  exact sleep_mem_processUrlEvents remote fetcher_link_expander u d hu2

/-- C7: a video URL of the watch form classifies as the video tag; the
video identifier is extracted purely structurally into
`extra_data.video_id`, the video extractor performs no network call, and a
URL with no recognizable identifier pattern yields empty `extra_data`. -/
theorem c7_video_extraction (remote : Remote) (vid : String)
    (hamp : '&' ∉ vid.toList)
    (hres : remote.resolve ("https://www.youtube.com/watch?v=" ++ vid) =
      ResolveOutcome.resolved ("https://www.youtube.com/watch?v=" ++ vid)) :
    classify ("https://www.youtube.com/watch?v=" ++ vid) = "youtube" ∧
    videoIdOf ("https://www.youtube.com/watch?v=" ++ vid) = some vid ∧
    (processUrl remote ("https://www.youtube.com/watch?v=" ++ vid)).extra_data =
      [("video_id", vid)] ∧
    extractEvents "youtube" ("https://www.youtube.com/watch?v=" ++ vid) = [] ∧
    (∀ url, videoIdOf url = none →
       extractRaw remote "youtube" url = Except.ok (none, none, [])) := by
  refine ⟨classify_youtube_watch vid, videoIdOf_youtube_watch vid hamp, ?_, ?_, ?_⟩
  · rw [processUrl_resolved_youtube remote _ _ hres (classify_youtube_watch vid)]
    simp [videoIdOf_youtube_watch vid hamp]
  · rfl
  · intro url hnone
    unfold extractRaw
    rw [hnone]
    rfl

/-- Witness for C7: the theorem applied to the concrete identifier
"dQw4w9WgXcQ" under a remote world resolving every URL to itself. -/
theorem c7_video_extraction_witness :
    '&' ∉ "dQw4w9WgXcQ".toList ∧
    classify ("https://www.youtube.com/watch?v=" ++ "dQw4w9WgXcQ") = "youtube" ∧
    videoIdOf ("https://www.youtube.com/watch?v=" ++ "dQw4w9WgXcQ") =
      some "dQw4w9WgXcQ" ∧
    (processUrl remoteIdent
        ("https://www.youtube.com/watch?v=" ++ "dQw4w9WgXcQ")).extra_data =
      [("video_id", "dQw4w9WgXcQ")] :=
  ⟨by decide,
    (c7_video_extraction remoteIdent "dQw4w9WgXcQ" (by decide) rfl).1,
    (c7_video_extraction remoteIdent "dQw4w9WgXcQ" (by decide) rfl).2.1,
    (c7_video_extraction remoteIdent "dQw4w9WgXcQ" (by decide) rfl).2.2.1⟩

/-- C8: processing always appends to, never replaces, previously attached
metadata; and under the explicit-clearing protocol re-processing is
idempotent — clearing and re-running on the unchanged post with the
unchanged remote world reproduces the same result. -/
theorem c8_idempotent_reprocessing (remote : Remote) (post : Post) :
    (process_bookmark_urls remote post).url_metadata =
      post.url_metadata ++ (extractUrls post).map (processUrl remote) ∧
    process_bookmark_urls remote
        (clearMetadata (process_bookmark_urls remote (clearMetadata post))) =
      process_bookmark_urls remote (clearMetadata post) := by
  refine ⟨process_metadata remote post, ?_⟩
  rw [clear_process_clear]

/-- C9: across a batch with configured delay D, the modelled elapsed time —
the pacing sleeps, paid after each resolution attempt, success or failure —
totals exactly (total URL count) × D and hence is at least
(total URL count − 1) × D. -/
theorem c9_pacing_lower_bound (remote : Remote) (le : LinkExpander)
    (posts : List Post) (hD : 0 ≤ le.delay) :
    totalSleep (batchEvents remote le posts) =
      (totalUrlCount posts : ℚ) * le.delay ∧
    ((totalUrlCount posts : ℚ) - 1) * le.delay ≤
      totalSleep (batchEvents remote le posts) := by
  refine ⟨totalSleep_batchEvents remote le posts, ?_⟩
  rw [totalSleep_batchEvents]
  have h1 : ((totalUrlCount posts : ℚ) - 1) ≤ (totalUrlCount posts : ℚ) := by
    linarith
  exact mul_le_mul_of_nonneg_right h1 hD

/-- Witness for C9: the theorem applied to a two-post batch under the
construction-site configuration (delay 0.3). -/
theorem c9_pacing_lower_bound_witness :
    (0 : ℚ) ≤ fetcher_link_expander.delay ∧
    totalSleep (batchEvents remoteAllTimeout fetcher_link_expander
        [samplePost, samplePost2]) =
      (totalUrlCount [samplePost, samplePost2] : ℚ) *
        fetcher_link_expander.delay ∧
    ((totalUrlCount [samplePost, samplePost2] : ℚ) - 1) *
        fetcher_link_expander.delay ≤
      totalSleep (batchEvents remoteAllTimeout fetcher_link_expander
        [samplePost, samplePost2]) :=
  ⟨by norm_num [fetcher_link_expander, LinkExpander.init],
    c9_pacing_lower_bound remoteAllTimeout fetcher_link_expander
      [samplePost, samplePost2]
      (by norm_num [fetcher_link_expander, LinkExpander.init])⟩

/-- C10: the Markdown exporter subscripts `expanded_url` unconditionally:
the link section renders successfully, with one rendered block per entry,
exactly when every entry carries the `expanded_url` key, and any entry
lacking it makes the export raise a KeyError. -/
theorem c10_export_requires_expanded_url
    (lds : List (List (String × PyVal))) :
    ((∃ parts, render_url_metadata lds = Except.ok parts ∧
        parts.length = lds.length) ↔
      ∀ ld ∈ lds, (pyLookup ld "expanded_url").isSome) ∧
    (∀ ld ∈ lds, pyLookup ld "expanded_url" = none →
       ∃ e, render_url_metadata lds = Except.error e) := by
  refine ⟨⟨?_, ?_⟩, ?_⟩
  · rintro ⟨parts, hp, _⟩
    exact (render_url_metadata_ok_iff lds).mp ⟨parts, hp⟩
  · intro h
    obtain ⟨parts, hp⟩ := (render_url_metadata_ok_iff lds).mpr h
    exact ⟨parts, hp, render_url_metadata_length lds parts hp⟩
  · intro ld hld hnone
    exact render_url_metadata_error_of_missing lds ld hld hnone

end TwitterLearning
